import Mathlib

/-!
Shallow embedding of the sephira3 backend core — query parsing
(src/utils/query_parser.py), guardrails (src/services/guardrail_service.py)
and summary statistics (src/services/data_service.py) — together with
theorems settling the frozen claims C1-C10.

Modelling conventions:
- Python strings are Lean `String`s; character-level work happens on
  `List Char` (Python indexes/slices strings by code point).
- Python floats are modelled as exact rationals (`ℚ`).
- Fallible code returns `Option`.
-/

namespace Sephira

/-! ### Small Python string primitives -/

/-- ASCII whitespace removed by Python `str.strip()` with no argument. -/
def isPyWhite (c : Char) : Bool :=
  c = ' ' || c = '\t' || c = '\n' || c = '\r' || c = '\x0b' || c = '\x0c'

/-- Python `s.strip()`: drop leading and trailing whitespace. -/
def pyStrip (s : List Char) : List Char :=
  ((s.dropWhile isPyWhite).reverse.dropWhile isPyWhite).reverse

/-- Python `s.split(sep)` for a one-character separator: always at least one
field, empty fields preserved. -/
def splitOnChar (sep : Char) : List Char → List (List Char)
  | [] => [[]]
  | c :: rest =>
    match splitOnChar sep rest with
    | [] => [[]]
    | h :: t => if c = sep then [] :: h :: t else (c :: h) :: t

/-! ### GuardrailService.sanitize_response (src/services/guardrail_service.py:163-191) -/

/-- Source line 184: the per-field numeric test
`p.strip().replace('.', '').replace('-', '').isdigit()`.  Python `replace`
deletes every occurrence of the character, and `isdigit` demands a nonempty
all-digit string. -/
def fieldIsNumeric (p : List Char) : Bool :=
  let r := (pyStrip p).filter (fun c => !(c = '.' || c = '-'))
  !r.isEmpty && r.all Char.isDigit

/-- Bit length of a natural number, with explicit fuel so the definition
reduces structurally; 128 bits of fuel cover every value that can arise from
a CPython object length. -/
def bitsAux : Nat → Nat → Nat
  | 0, _ => 0
  | fuel + 1, n => if n = 0 then 0 else bitsAux fuel (n / 2) + 1

/-- Source line 186: the right-hand side of `numeric_count > len(parts) * 0.7`,
scaled by `2 ^ 53` to stay in the naturals.  The literal `0.7` is the binary64
double `6305039478318694 / 2 ^ 53`, so the exact product is
`len * 6305039478318694 / 2 ^ 53`; IEEE 754 multiplication rounds it to 53
significant bits with round-half-to-even, which is what the shift-and-round
below performs (the conversion of `len` itself to float is exact below
`2 ^ 53`, far beyond any line CPython can hold).  At `len = 90` the result is
`62.99999999999999 * 2 ^ 53`, strictly below `63 * 2 ^ 53`: the float product
can fall below the exact value `0.7 * len` at an exact 70 percent ratio. -/
def flMul07 (len : Nat) : Nat :=
  let N := len * 6305039478318694
  let b := bitsAux 128 N
  if b ≤ 53 then N
  else
    let s := b - 53
    let q := N / 2 ^ s
    let r := N % 2 ^ s
    let h := 2 ^ (s - 1)
    (if h < r ∨ (r = h ∧ q % 2 = 1) then q + 1 else q) * 2 ^ s

/-- Source lines 179-187: a line is dropped when it contains a comma, its
comma-split has more than 5 fields, and the numeric-field count exceeds
`len(parts) * 0.7` as Python computes it: the integer count compared exactly
(CPython compares an int to a float without rounding) against the binary64
product modelled by `flMul07`, both sides scaled by `2 ^ 53`. -/
def isCsvLeakLine (line : List Char) : Bool :=
  if line.contains ',' then
    let parts := splitOnChar ',' line
    if 5 < parts.length then
      decide (flMul07 parts.length < 2 ^ 53 * parts.countP fieldIsNumeric)
    else false
  else false

/-- Source src/services/guardrail_service.py:163-191 —
`GuardrailService.sanitize_response`: split on line breaks, drop CSV-shaped
lines, rejoin. -/
def sanitize_response (response : String) : String :=
  String.mk (List.intercalate ['\n']
    ((splitOnChar '\n' response.data).filter (fun l => !isCsvLeakLine l)))

/-- The numeric-field test exactly as claim C4 words it: after stripping
surrounding whitespace, a single optional decimal point and a leading minus
sign, the field must be nonempty and all digits. -/
def fieldIsNumericClaim (p : List Char) : Bool :=
  let t := pyStrip p
  let t1 := if t.head? = some '-' then t.tail else t
  let digitsOnly := t1.filter (fun c => !(c = '.'))
  decide (t1.count '.' ≤ 1) && !digitsOnly.isEmpty && digitsOnly.all Char.isDigit

/-- The sanitizer exactly as claim C4 words it (only the numeric-field test
differs from the source). -/
def sanitizeClaim (response : String) : String :=
  String.mk (List.intercalate ['\n']
    ((splitOnChar '\n' response.data).filter (fun l =>
      !(if l.contains ',' then
          let parts := splitOnChar ',' l
          if 5 < parts.length then
            decide (7 * parts.length < 10 * parts.countP fieldIsNumericClaim)
          else false
        else false))))

/-! ### GuardrailService.check_rate_limit (src/services/guardrail_service.py:126-161) -/

/-- One entry of `query_history`; the code reads both keys with `.get`, so
either may be absent.  Timestamps are integer seconds. -/
structure HistEntry where
  query : Option String
  timestamp : Option Int

/-- Rejection message for the volume branch of `check_rate_limit`. -/
def rateLimitReason : String :=
  "Rate limit exceeded. Please wait a moment before making another request."

/-- Rejection message for the repetition branch of `check_rate_limit`. -/
def repetitiveReason : String :=
  "Please vary your queries. Repeated similar requests may indicate automated scraping."

/-- Source line 143-146: the queries of the trailing 60-second window;
`q.get('timestamp', now)` defaults a missing timestamp to `now`. -/
def recentOf (now : Int) (history : List HistEntry) : List HistEntry :=
  history.filter (fun q => decide (now - 60 < q.timestamp.getD now))

/-- Source line 155: the first 50 characters of each recent query text; a
missing query text defaults to the empty string. -/
def truncatedTexts (now : Int) (history : List HistEntry) : List (List Char) :=
  (recentOf now history).map (fun q => (q.query.getD "").data.take 50)

/-- Source src/services/guardrail_service.py:126-161 —
`GuardrailService.check_rate_limit`.  `now` is passed explicitly. -/
def check_rate_limit (now : Int) (history : List HistEntry) : Bool × Option String :=
  let recent := recentOf now history
  if 10 ≤ recent.length then
    (false, some rateLimitReason)
  else if 5 ≤ recent.length ∧ (truncatedTexts now history).dedup.length ≤ 2 then
    (false, some repetitiveReason)
  else
    (true, none)

/-! ### Theorems for C4 and C8 -/

/-- Claim C4 (counterexample): the claim's numeric-field reading ("a single
optional decimal point and a leading minus sign") disagrees with the source,
which deletes every dot and every minus anywhere in the field.  On the line
`1-2,3-4,5-6,7-8,9-1,2-3,a` the source counts 6 of 7 fields numeric and drops
the line, while the claim's reading counts 0 numeric fields and keeps it. -/
theorem C4_counterexample :
    sanitize_response "1-2,3-4,5-6,7-8,9-1,2-3,a" = "" ∧
    sanitizeClaim "1-2,3-4,5-6,7-8,9-1,2-3,a" = "1-2,3-4,5-6,7-8,9-1,2-3,a" := by
  constructor <;> rfl

set_option maxRecDepth 8192 in
/-- Claim C4 (amended): `sanitize_response` splits on line breaks and drops
exactly the lines that contain a comma, split into more than 5 comma fields,
and whose numeric-field count exceeds the binary64 float product
`len(parts) * 0.7`, where a field is numeric when it is nonempty and all
digits after stripping surrounding whitespace and deleting every '.' and
every '-' character; surviving lines are rejoined with line breaks.  A
7-field line of 6 pure numbers is removed; with only 3 numeric fields out of
7 it is preserved; and because the float product can round below the exact
value, a 90-field line with exactly 63 numeric fields — exactly 70 percent —
is also removed. -/
theorem C4_amended :
    (∀ response : String,
      sanitize_response response =
        String.mk (List.intercalate ['\n']
          ((splitOnChar '\n' response.data).filter (fun l =>
            !(l.contains ',' &&
              decide (5 < (splitOnChar ',' l).length) &&
              decide (flMul07 (splitOnChar ',' l).length <
                2 ^ 53 * (splitOnChar ',' l).countP fieldIsNumeric)))))) ∧
    sanitize_response "1,2,3,4,5.5,-6,x" = "" ∧
    sanitize_response "1,2,3,a,b,c,x" = "1,2,3,a,b,c,x" ∧
    (let line90 := List.intercalate [','] (List.replicate 63 ['1'] ++ List.replicate 27 ['a'])
     10 * (splitOnChar ',' line90).countP fieldIsNumeric =
        7 * (splitOnChar ',' line90).length ∧
      sanitize_response (String.mk line90) = "") := by
  refine ⟨fun response => ?_, rfl, rfl, rfl, rfl⟩
  unfold sanitize_response isCsvLeakLine
  congr 2
  refine List.filter_congr (fun l _ => ?_)
  by_cases hc : l.contains ','
  · simp only [hc, if_true, Bool.true_and]
    by_cases hl : 5 < (splitOnChar ',' l).length
    · simp [hl]
    · simp [hl]
  · simp [hc, Bool.or_assoc]

/-- Claim C8: over the trailing 60-second window, `check_rate_limit` blocks
with the rate-limit reason when the window holds 10 or more queries; otherwise
it blocks with the repetitive reason exactly when the window holds 5 or more
queries whose 50-character-truncated texts take at most 2 distinct values; in
all other cases it allows.  The repetitive check never fires below 5 queries. -/
theorem C8_rate_limit (now : Int) (history : List HistEntry) :
    (10 ≤ (recentOf now history).length →
      check_rate_limit now history = (false, some rateLimitReason)) ∧
    ((recentOf now history).length < 10 →
      (check_rate_limit now history = (false, some repetitiveReason) ↔
        5 ≤ (recentOf now history).length ∧
          (truncatedTexts now history).dedup.length ≤ 2)) ∧
    ((recentOf now history).length < 5 → check_rate_limit now history = (true, none)) ∧
    ((recentOf now history).length < 10 →
      ¬ (5 ≤ (recentOf now history).length ∧
          (truncatedTexts now history).dedup.length ≤ 2) →
      check_rate_limit now history = (true, none)) := by
  unfold check_rate_limit
  refine ⟨fun h10 => ?_, fun hlt => ?_, fun h5 => ?_, fun hlt hnot => ?_⟩
  · simp only [if_pos h10]
  · constructor
    · intro heq
      by_cases hrep : 5 ≤ (recentOf now history).length ∧
          (truncatedTexts now history).dedup.length ≤ 2
      · exact hrep
      · rw [if_neg (by omega), if_neg hrep] at heq
        simp at heq
    · intro hrep
      rw [if_neg (by omega), if_pos hrep]
  · rw [if_neg (by omega), if_neg (by omega)]
  · rw [if_neg (by omega), if_neg hnot]

/-- Claim C8 witness: a concrete six-entry history inside the window with two
distinct truncated texts is blocked as repetitive. -/
theorem C8_rate_limit_witness :
    check_rate_limit 100
      (List.replicate 3 (HistEntry.mk (some "a") (some 90)) ++
       List.replicate 3 (HistEntry.mk (some "b") (some 95))) =
      (false, some repetitiveReason) := by
  have h := (C8_rate_limit 100
    (List.replicate 3 (HistEntry.mk (some "a") (some 90)) ++
     List.replicate 3 (HistEntry.mk (some "b") (some 95)))).2.1 (by decide)
  exact h.mpr (by decide)

/-! ### QueryParser.extract_countries (src/utils/query_parser.py:22-34) -/

/-- Python `str.lower()` restricted to ASCII, which is all the repository's
country names and patterns use. -/
def lcList (s : List Char) : List Char := s.map Char.toLower

/-- A regex word character (`\w` over ASCII): letter, digit or underscore. -/
def isWordChar (c : Char) : Bool := c.isAlphanum || c = '_'

/-- Whether position `i` of `q` holds a word character (out of range counts as
not a word character). -/
def wordAt (q : List Char) (i : Nat) : Bool :=
  match q[i]? with
  | some c => isWordChar c
  | none => false

/-- Regex `\b`: a word boundary sits between positions `i-1` and `i` exactly
when one side is a word character and the other is not (ends of the string
count as non-word). -/
def boundaryAt (q : List Char) : Nat → Bool
  | 0 => wordAt q 0
  | i + 1 => wordAt q i != wordAt q (i + 1)

/-- The escaped pattern `\b<pat>\b` matches `q` at position `i`. -/
def wordBoundedAt (pat q : List Char) (i : Nat) : Bool :=
  pat.isPrefixOf (q.drop i) && boundaryAt q i && boundaryAt q (i + pat.length)

/-- Source line 29-30: `re.search(r'\b' + re.escape(country_lower) + r'\b',
query_lower)` — the literal pattern occurs somewhere in `q` with word
boundaries on both ends. -/
def wordBoundedMatch (pat q : List Char) : Bool :=
  (List.range (q.length + 1)).any (wordBoundedAt pat q)

/-- A known country name matches the query (both sides lowercased, as in the
source). -/
def countryMatches (country query : String) : Bool :=
  wordBoundedMatch (lcList country.data) (lcList query.data)

/-- Source line 27-32: the accumulation loop of `extract_countries`, iterating
over the known-country list and appending each word-bounded match not already
collected. -/
def extractAux (query : String) : List String → List String → List String
  | [], acc => acc
  | c :: rest, acc =>
    if countryMatches c query && !acc.contains c then
      extractAux query rest (acc ++ [c])
    else
      extractAux query rest acc

/-- Source src/utils/query_parser.py:22-34 — `QueryParser.extract_countries`. -/
def extract_countries (available : List String) (query : String) : List String :=
  extractAux query available []

/-- The position of the first word-bounded occurrence of `pat` in `q`
(one past the end when there is none). -/
def firstMatchPos (pat q : List Char) : Nat :=
  (((List.range (q.length + 1)).filter (wordBoundedAt pat q)).headD (q.length + 1))

/-- The matched countries listed in order of first appearance in the query
text, which is how claim C1 words the output order. -/
def mentionOrder (available : List String) (query : String) : List String :=
  (available.filter (fun c => countryMatches c query)).insertionSort
    (fun a b =>
      firstMatchPos (lcList a.data) (lcList query.data) ≤
        firstMatchPos (lcList b.data) (lcList query.data))

/-- Invariant of the accumulation loop of `extract_countries`. -/
theorem extractAux_spec (query : String) (l : List String) :
    ∀ acc : List String, acc.Nodup →
      ∃ t, extractAux query l acc = acc ++ t ∧ t.Sublist l ∧ (acc ++ t).Nodup ∧
        (∀ c ∈ t, countryMatches c query = true) ∧
        (∀ c ∈ l, countryMatches c query = true → c ∈ acc ∨ c ∈ t) := by
  induction l with
  | nil =>
    intro acc hacc
    exact ⟨[], by simp [extractAux], by simp, by simpa using hacc, by simp, by simp⟩
  | cons c rest ih =>
    intro acc hacc
    by_cases hcond : (countryMatches c query && !acc.contains c) = true
    · have hmatch : countryMatches c query = true := by
        simpa using (Bool.and_elim_left hcond)
      have hnotin : c ∉ acc := by
        have := Bool.and_elim_right hcond
        simpa using this
      have hacc2 : (acc ++ [c]).Nodup := by
        simp [List.nodup_append, hacc, hnotin]
      obtain ⟨t, heq, hsub, hnd, hall, hcov⟩ := ih (acc ++ [c]) hacc2
      refine ⟨c :: t, ?_, ?_, ?_, ?_, ?_⟩
      · simp only [extractAux, hcond, if_pos]
        rw [heq, List.append_assoc]
        simp
      · exact List.Sublist.cons₂ c hsub
      · have : acc ++ c :: t = (acc ++ [c]) ++ t := by
          rw [List.append_assoc]; simp
        rw [this]; exact hnd
      · intro x hx
        rcases List.mem_cons.mp hx with h | h
        · subst h; exact hmatch
        · exact hall x h
      · intro x hx hm
        rcases List.mem_cons.mp hx with h | h
        · subst h; right; exact List.mem_cons_self _ _
        · rcases hcov x h hm with h2 | h2
          · rcases List.mem_append.mp h2 with h3 | h3
            · left; exact h3
            · right; simp at h3; subst h3; exact List.mem_cons_self _ _
          · right; exact List.mem_cons_of_mem _ h2
    · obtain ⟨t, heq, hsub, hnd, hall, hcov⟩ := ih acc hacc
      refine ⟨t, ?_, ?_, hnd, hall, ?_⟩
      · simp only [extractAux, hcond, if_neg]
        exact heq
      · exact hsub.trans (List.sublist_cons_self _ _)
      · intro x hx hm
        rcases List.mem_cons.mp hx with h | h
        · subst h
          left
          have : ¬ (countryMatches x query && !acc.contains x) = true := hcond
          rw [hm] at this
          simp at this
          exact this
        · exact hcov x h hm

/-- Claim C1 (counterexample): `extract_countries` returns matches in the
order of the known-country list, not in order of first appearance in the
query.  With known countries `["France", "Germany"]` and query
"germany and france", the code returns `["France", "Germany"]` although
Germany is mentioned first. -/
theorem C1_counterexample :
    extract_countries ["France", "Germany"] "germany and france" =
      ["France", "Germany"] ∧
    mentionOrder ["France", "Germany"] "germany and france" =
      ["Germany", "France"] := by
  constructor <;> rfl

/-- Claim C1 (amended): for every query and ordered known-country list,
`extract_countries` returns exactly the known countries that occur in the
query as case-insensitive whole-word matches, each included exactly once
regardless of repeated mentions, listed in the order of the known-country
list (not in order of first appearance in the query). -/
theorem C1_extract_countries (available : List String) (query : String) :
    (∀ c, c ∈ extract_countries available query ↔
      c ∈ available ∧ countryMatches c query = true) ∧
    (extract_countries available query).Nodup ∧
    (extract_countries available query).Sublist available := by
  obtain ⟨t, heq, hsub, hnd, hall, hcov⟩ :=
    extractAux_spec query available [] List.nodup_nil
  have hres : extract_countries available query = t := by
    simpa [extract_countries] using heq
  refine ⟨fun c => ?_, ?_, ?_⟩
  · rw [hres]
    constructor
    · intro hc
      exact ⟨hsub.mem hc, hall c hc⟩
    · rintro ⟨hmem, hm⟩
      rcases hcov c hmem hm with h | h
      · simp at h
      · exact h
  · rw [hres]; simpa using hnd
  · rw [hres]; exact hsub

/-! ### A small regex interpreter

The guardrail patterns use only literals, alternation, `\s+`, `\s*`, `\d`,
`.`, optional groups and `\b`; this inductive covers exactly those.  Matching
is a backtracking search producing every reachable state, so `research`
decides whether `re.search` would find a match.  All patterns are compiled
with `re.IGNORECASE` and run against the lowercased query, which is
equivalent to matching the lowercase literals against the lowercased query. -/

inductive RE where
  | fail
  | eps
  | lit (cs : List Char)
  | dot
  | digit
  | ws1
  | ws0
  | opt (r : RE)
  | alt (r1 r2 : RE)
  | cat (r1 r2 : RE)
  | wb
deriving Repr

/-- Python regex `\s` over ASCII. -/
def isRegexSpace (c : Char) : Bool :=
  c = ' ' || c = '\t' || c = '\n' || c = '\r' || c = '\x0b' || c = '\x0c'

/-- The last character of `cs`, or the incoming previous character when `cs`
is empty. -/
def lastCharOf (cs : List Char) (p : Option Char) : Option Char :=
  match cs.getLast? with
  | some c => some c
  | none => p

/-- Word-boundary test between a previous character and the head of the
remaining input. -/
def wbOk (p : Option Char) (s : List Char) : Bool :=
  (match p with | some c => isWordChar c | none => false) !=
    (match s.head? with | some c => isWordChar c | none => false)

/-- All states reachable by consuming zero or more space characters. -/
def spaceStates (p : Option Char) : List Char → List (Option Char × List Char)
  | [] => [(p, [])]
  | c :: rest =>
    (p, c :: rest) :: (if isRegexSpace c then spaceStates (some c) rest else [])

/-- All states (previous character, remaining input) reachable by matching
`r` once at the current position. -/
def mrun : RE → Option Char → List Char → List (Option Char × List Char)
  | .fail, _, _ => []
  | .eps, p, s => [(p, s)]
  | .lit cs, p, s =>
    if cs.isPrefixOf s then [(lastCharOf cs p, s.drop cs.length)] else []
  | .dot, _, s =>
    match s with
    | c :: rest => if c != '\n' then [(some c, rest)] else []
    | [] => []
  | .digit, _, s =>
    match s with
    | c :: rest => if c.isDigit then [(some c, rest)] else []
    | [] => []
  | .ws1, _, s =>
    match s with
    | c :: rest => if isRegexSpace c then spaceStates (some c) rest else []
    | [] => []
  | .ws0, p, s => spaceStates p s
  | .opt r, p, s => (p, s) :: mrun r p s
  | .alt r1 r2, p, s => mrun r1 p s ++ mrun r2 p s
  | .cat r1 r2, p, s => (mrun r1 p s).flatMap (fun st => mrun r2 st.1 st.2)
  | .wb, p, s => if wbOk p s then [(p, s)] else []

/-- Python `re.search`: the pattern matches at some position of `s`. -/
def research (r : RE) (s : List Char) : Bool :=
  (List.range (s.length + 1)).any (fun i =>
    !(mrun r (match i with | 0 => none | j + 1 => s[j]?) (s.drop i)).isEmpty)

/-- A literal regex piece. -/
def rlit (s : String) : RE := .lit s.data

/-- An alternation group of regex pieces, tried left to right. -/
def altList (rs : List RE) : RE := rs.foldr RE.alt .fail

/-- An alternation group of literal words. -/
def anyOf (ss : List String) : RE := altList (ss.map rlit)

/-- Sequential composition of regex pieces. -/
def seqList (rs : List RE) : RE := rs.foldr RE.cat .eps

/-! ### GuardrailService.validate_query (src/services/guardrail_service.py:16-124) -/

/-- Source lines 19-27: the `data_extraction_patterns` regex family. -/
def dataExtractionPatterns : List RE :=
  [seqList [.wb, anyOf ["all", "full", "entire", "complete"], .ws1,
      altList [rlit "data", rlit "dataset", rlit "database",
        seqList [rlit "time", .opt .dot, rlit "series"]]],
   seqList [.wb, anyOf ["download", "export", "dump", "extract", "get"], .ws1,
      anyOf ["all", "everything", "full", "complete"]],
   seqList [.wb, anyOf ["csv", "json", "excel", "spreadsheet"], .ws1,
      anyOf ["of", "with", "containing"]],
   seqList [.wb, anyOf ["raw", "source", "underlying", "original"], .ws1,
      anyOf ["data", "values", "numbers"]],
   seqList [.wb, anyOf ["all", "every"], .ws1, anyOf ["country", "nation"]],
   seqList [.wb, anyOf ["bulk", "mass", "batch"], .ws1,
      anyOf ["data", "extract", "download"]],
   seqList [.wb, anyOf ["replicate", "copy", "clone"], .ws1,
      anyOf ["data", "database"]]]

/-- Source lines 30-38: the `reverse_engineering_patterns` regex family. -/
def reverseEngineeringPatterns : List RE :=
  [seqList [.wb, anyOf ["how", "what", "which", "where"], .ws1,
      anyOf ["is", "are", "was", "were"], .ws1,
      .opt (anyOf ["the", "this", "your", "our", "all"]), .ws0,
      anyOf ["data", "sentiment"], .ws1,
      anyOf ["collected", "gathered", "obtained", "sourced", "generated"]],
   seqList [.wb, anyOf ["method", "methodology", "algorithm", "formula",
      "calculation", "computation"], .ws1, anyOf ["for", "of", "used", "to"]],
   seqList [.wb, anyOf ["data", "sentiment"], .ws1,
      anyOf ["source", "provider", "origin", "collection", "pipeline"]],
   seqList [.wb, anyOf ["api", "endpoint", "service"], .ws1,
      anyOf ["that", "which", "used", "for"]],
   seqList [.wb, anyOf ["underlying", "proprietary", "internal", "secret"], .ws1,
      anyOf ["method", "algorithm", "formula", "process", "data"]],
   seqList [.wb, altList
      [seqList [rlit "back", .opt .dot, rlit "engineer"],
       seqList [rlit "reverse", .opt .dot, rlit "engineer"],
       seqList [rlit "figure", .opt .dot, rlit "out"]], .ws1,
      anyOf ["how", "what", "the"]],
   seqList [.wb, anyOf ["derive", "calculate", "compute"], .ws1,
      anyOf ["from", "using", "with"], .ws1, anyOf ["source", "raw", "original"]]]

/-- Source lines 41-48: the `unethical_patterns` regex family. -/
def unethicalPatterns : List RE :=
  [seqList [.wb, anyOf ["manipulate", "exploit", "target"], .ws1,
      anyOf ["market", "election", "public", "opinion"]],
   seqList [.wb, anyOf ["compare", "rank"], .ws1, anyOf ["countries", "nations"],
      .ws1, altList [rlit "by", seqList [rlit "based", .dot, rlit "on"]], .ws1,
      anyOf ["race", "religion", "ethnicity"]],
   seqList [.wb, anyOf ["vulnerable", "weak", "poor"], .ws1,
      altList [seqList [rlit "population", .opt (rlit "s")],
        seqList [rlit "countrie", .opt (rlit "s")],
        seqList [rlit "group", .opt (rlit "s")]]],
   seqList [.wb, anyOf ["identify", "find", "locate"], .ws1,
      anyOf ["vulnerable", "weak", "target"]],
   seqList [.wb, anyOf ["incite", "promote", "encourage"], .ws1,
      anyOf ["violence", "hatred", "discrimination"]],
   seqList [.wb, anyOf ["discriminatory", "harmful", "offensive"], .ws1,
      anyOf ["comparison", "analysis", "chart"]]]

/-- Source lines 114-118: the `broad_time_patterns` of `_is_bulk_request`. -/
def broadTimePatterns : List RE :=
  [seqList [.wb, rlit "all", .ws1, anyOf ["time", "history", "data", "years"]],
   seqList [.wb, anyOf ["entire", "full", "complete"], .ws1,
      anyOf ["history", "period", "range"]],
   seqList [.wb,
      altList [seqList [rlit "19", .digit, .digit], seqList [rlit "20", .digit, .digit]],
      .ws1, rlit "to", .ws1,
      altList [seqList [rlit "19", .digit, .digit], seqList [rlit "20", .digit, .digit]]]]

/-- Rejection message of the data-extraction family. -/
def dataExtractionReason : String :=
  "Requests for bulk data extraction or complete datasets are not permitted. Please request specific insights or time periods instead."

/-- Rejection message of the reverse-engineering family. -/
def reverseEngineeringReason : String :=
  "Questions about data collection methods, algorithms, or proprietary methodologies cannot be answered. I can help with analytical insights instead."

/-- Rejection message of the unethical family. -/
def unethicalReason : String :=
  "This query may promote unethical use of data. Please rephrase your request to focus on legitimate analytical insights."

/-- Rejection message of the bulk heuristic. -/
def bulkReason : String :=
  "Requests for large amounts of data are not permitted. Please specify a particular country or time period of interest."

/-- Source lines 99-124 — `GuardrailService._is_bulk_request`.  The source
also computes a `country_count` of keyword occurrences, but never uses it;
only the broad-time patterns decide the result. -/
def is_bulk_request (q : List Char) : Bool :=
  broadTimePatterns.any (fun r => research r q)

/-- Source src/services/guardrail_service.py:55-97 —
`GuardrailService.validate_query`. -/
def validate_query (query : String) : Bool × Option String × String :=
  let ql := lcList query.data
  if dataExtractionPatterns.any (fun r => research r ql) then
    (false, some dataExtractionReason, "data_extraction")
  else if reverseEngineeringPatterns.any (fun r => research r ql) then
    (false, some reverseEngineeringReason, "reverse_engineering")
  else if unethicalPatterns.any (fun r => research r ql) then
    (false, some unethicalReason, "unethical")
  else if is_bulk_request ql then
    (false, some bulkReason, "data_extraction")
  else
    (true, none, "allowed")

/-- The ordered policy table claim C2 describes: pattern families checked in
the order data-extraction, reverse-engineering, unethical. -/
def familyTable : List (List RE × String × String) :=
  [(dataExtractionPatterns, dataExtractionReason, "data_extraction"),
   (reverseEngineeringPatterns, reverseEngineeringReason, "reverse_engineering"),
   (unethicalPatterns, unethicalReason, "unethical")]

/-- First family of an ordered table whose pattern list matches the query. -/
def firstFamilyVerdict : List (List RE × String × String) → List Char →
    Option (String × String)
  | [], _ => none
  | (pats, reason, cat) :: rest, q =>
    if pats.any (fun r => research r q) then some (reason, cat)
    else firstFamilyVerdict rest q

/-- Claim C2's wording of the validator: the three families in order with
first match winning, then the bulk heuristic, then allowed. -/
def validateQuerySpec (query : String) : Bool × Option String × String :=
  let ql := lcList query.data
  match firstFamilyVerdict familyTable ql with
  | some (reason, cat) => (false, some reason, cat)
  | none =>
    if is_bulk_request ql then (false, some bulkReason, "data_extraction")
    else (true, none, "allowed")

/-- Claim C2: the three documented example verdicts, and the evaluation order
of the pattern families — data-extraction, reverse-engineering, unethical,
then the bulk heuristic, first match winning. -/
theorem C2_validate_query :
    validate_query "Download all data as CSV" =
      (false, some dataExtractionReason, "data_extraction") ∧
    validate_query "How is the data collected?" =
      (false, some reverseEngineeringReason, "reverse_engineering") ∧
    validate_query "Show me sentiment for France" = (true, none, "allowed") ∧
    ∀ q : String, validate_query q = validateQuerySpec q := by
  refine ⟨rfl, rfl, rfl, fun q => ?_⟩
  unfold validate_query validateQuerySpec familyTable
  by_cases h1 : dataExtractionPatterns.any (fun r => research r (lcList q.data)) = true
  · simp [firstFamilyVerdict, h1]
  · by_cases h2 :
      reverseEngineeringPatterns.any (fun r => research r (lcList q.data)) = true
    · simp [firstFamilyVerdict, h1, h2]
    · by_cases h3 : unethicalPatterns.any (fun r => research r (lcList q.data)) = true
      · simp [firstFamilyVerdict, h1, h2, h3]
      · by_cases h4 : is_bulk_request (lcList q.data) = true
        · simp [firstFamilyVerdict, h1, h2, h3, h4]
        · simp [firstFamilyVerdict, h1, h2, h3, h4]

/-! ### DataService.get_summary_statistics (src/services/data_service.py:103-199)

The sentiment values of the series (already date-filtered and with missing
observations dropped, which the host does in pandas) are modelled as a
`List ℚ`: every float is an exact rational.  The one irrational operation,
`values.std()`, is modelled through `Rat.sqrt` of the exact sample variance;
the code only consumes `std` through the sign test `std > 0` (where
`Rat.sqrt` agrees exactly with the real square root) and through quantities
the claims evaluate only at `std = 0`. -/

/-- Arithmetic mean of a series. -/
def meanQ (values : List ℚ) : ℚ := values.sum / values.length

/-- Sample variance with one delta degree of freedom, the square of pandas
`Series.std()`.  For a single point pandas returns NaN; no claim touches that
case and it is modelled as 0. -/
def varQ (values : List ℚ) : ℚ :=
  if values.length ≤ 1 then 0
  else ((values.map (fun x => (x - meanQ values) ^ 2)).sum) / ((values.length : ℚ) - 1)

/-- Model of `values.std()` (see the section comment). -/
def stdQ (values : List ℚ) : ℚ := Rat.sqrt (varQ values)

/-- Sum of `i * v_i` with positions starting at `i0`. -/
def sxySum : ℚ → List ℚ → ℚ
  | _, [] => 0
  | i, v :: rest => i * v + sxySum (i + 1) rest

/-- Sum of the positions `i0, i0+1, ...` along the series. -/
def sxSum : ℚ → List ℚ → ℚ
  | _, [] => 0
  | i, _ :: rest => i + sxSum (i + 1) rest

/-- Sum of the squared positions along the series. -/
def sxxSum : ℚ → List ℚ → ℚ
  | _, [] => 0
  | i, _ :: rest => i ^ 2 + sxxSum (i + 1) rest

/-- Source line 126-127: `np.polyfit(x, values, 1)[0]` with `x = 0..n-1`, the
ordinary-least-squares slope `(n*Σxy - Σx*Σy) / (n*Σx² - (Σx)²)`; for `n ≥ 2`
the denominator is positive. -/
def slopeQ (values : List ℚ) : ℚ :=
  ((values.length : ℚ) * sxySum 0 values - sxSum 0 values * values.sum) /
    ((values.length : ℚ) * sxxSum 0 values - sxSum 0 values ^ 2)

/-- Source line 122-135: the trend label, set only for more than one point. -/
def trendOf (values : List ℚ) : Option String :=
  if 1 < values.length then
    some (if 1 / 100 < slopeQ values then "increasing"
      else if slopeQ values < -(1 / 100) then "decreasing" else "stable")
  else none

/-- Source line 123-128: `trend_strength = abs(slope) / values.std() if
values.std() > 0 else 0`, left at its initial 0.0 for a single point. -/
def trendStrengthOf (values : List ℚ) : ℚ :=
  if 1 < values.length then
    (if 0 < stdQ values then |slopeQ values| / stdQ values else 0)
  else 0

/-- Source line 141: `recent_size = max(1, len(values) // 5)`. -/
def recentSize (n : Nat) : Nat := max 1 (n / 5)

/-- Source lines 142-143: the (previous, recent) comparison windows of the
momentum computation.  `values.tail(k)` is the last `k` points,
`values.iloc[-2k:-k]` the `k` points before them, and `values.head(k)` the
first `k` points (the fallback for series shorter than `2k`). -/
def momentumWindows (values : List ℚ) : List ℚ × List ℚ :=
  let n := values.length
  let rs := recentSize n
  (if 2 * rs ≤ n then (values.drop (n - 2 * rs)).take rs else values.take rs,
   values.drop (n - rs))

/-- Source line 144: `momentum_value = (recent_mean - previous_mean) /
previous_mean * 100 if previous_mean != 0 else 0`. -/
def momentumValue (values : List ℚ) : ℚ :=
  if meanQ (momentumWindows values).1 ≠ 0 then
    (meanQ (momentumWindows values).2 - meanQ (momentumWindows values).1) /
      meanQ (momentumWindows values).1 * 100
  else 0

/-- Source lines 146-155: the momentum label from the momentum value. -/
def momentumLabel (mv : ℚ) : String :=
  if |mv| < 1 then "stable"
  else if 5 < mv then "strongly_positive"
  else if 1 < mv then "positive"
  else if mv < -5 then "strongly_negative"
  else "negative"

/-- Source lines 137-155: the momentum label, set only for at least three
points. -/
def momentumOf (values : List ℚ) : Option String :=
  if 3 ≤ values.length then some (momentumLabel (momentumValue values)) else none

/-- Source line 138/144: the `momentum_value` field, left at its initial 0.0
below three points. -/
def momentumValueOf (values : List ℚ) : ℚ :=
  if 3 ≤ values.length then momentumValue values else 0

/-- Source line 161: `volatility_value = (values.std() / values.mean() * 100)
if values.mean() != 0 else 0`. -/
def volatilityValue (values : List ℚ) : ℚ :=
  if meanQ values ≠ 0 then stdQ values / meanQ values * 100 else 0

/-- Source lines 163-168: the volatility label from the coefficient of
variation. -/
def volatilityLabel (vv : ℚ) : String :=
  if vv < 5 then "low" else if vv < 15 then "moderate" else "high"

/-- Source lines 157-168: the volatility label, set only for more than one
point. -/
def volatilityOf (values : List ℚ) : Option String :=
  if 1 < values.length then some (volatilityLabel (volatilityValue values)) else none

/-- Source line 158/161: the `volatility_value` field, left at its initial
0.0 for a single point. -/
def volatilityValueOf (values : List ℚ) : ℚ :=
  if 1 < values.length then volatilityValue values else 0

/-- Source lines 170-183: the forecast-direction lookup from trend and
momentum labels. -/
def forecastDirection (trend momentum : String) : String :=
  if trend = "increasing" ∧ (momentum = "positive" ∨ momentum = "strongly_positive") then
    "likely_continuing_upward"
  else if trend = "decreasing" ∧ (momentum = "negative" ∨ momentum = "strongly_negative") then
    "likely_continuing_downward"
  else if trend = "increasing" ∧ (momentum = "negative" ∨ momentum = "strongly_negative") then
    "possible_reversal_downward"
  else if trend = "decreasing" ∧ (momentum = "positive" ∨ momentum = "strongly_positive") then
    "possible_reversal_upward"
  else if momentum = "stable" then "likely_stable"
  else "uncertain"

/-- Source line 170-183: `forecast_direction`, set only when both the trend
and the momentum labels are set (`if trend and momentum`). -/
def forecastOf (values : List ℚ) : Option String :=
  match trendOf values, momentumOf values with
  | some t, some m => some (forecastDirection t m)
  | _, _ => none

/-- The record returned by `get_summary_statistics`; `none` models both a
Python `None` value and an absent key. -/
structure Stats where
  country : String
  data_points : Nat
  mean : Option ℚ
  min : Option ℚ
  max : Option ℚ
  std : Option ℚ
  trend : Option String
  trend_strength : Option ℚ
  momentum : Option String
  momentum_value : Option ℚ
  volatility : Option String
  volatility_value : Option ℚ
  forecast_direction : Option String
deriving Repr, DecidableEq

/-- Source src/services/data_service.py:103-199 —
`DataService.get_summary_statistics` on an already-sliced series.  The
function is total: the empty series returns the all-`None` record instead of
raising.  For a single point pandas would put NaN in `std`; that is modelled
as `none` (no claim touches it). -/
def get_summary_statistics (country : String) (values : List ℚ) : Stats :=
  if values.isEmpty then
    { country := country, data_points := 0, mean := none, min := none,
      max := none, std := none, trend := none, trend_strength := none,
      momentum := none, momentum_value := none, volatility := none,
      volatility_value := none, forecast_direction := none }
  else
    { country := country
      data_points := values.length
      mean := some (meanQ values)
      min := values.min?
      max := values.max?
      std := if 1 < values.length then some (stdQ values) else none
      trend := trendOf values
      trend_strength := some (trendStrengthOf values)
      momentum := momentumOf values
      momentum_value := some (momentumValueOf values)
      volatility := volatilityOf values
      volatility_value := some (volatilityValueOf values)
      forecast_direction := forecastOf values }

/-- Claim C7: an empty series (no observations in range) is not an error;
the analyzer returns the well-formed record with `data_points = 0` and all
derived fields `None`.  The model is total, mirroring that the source hits
the early-return branch and raises nothing. -/
theorem C7_empty_series (country : String) :
    get_summary_statistics country [] =
      { country := country, data_points := 0, mean := none, min := none,
        max := none, std := none, trend := none, trend_strength := none,
        momentum := none, momentum_value := none, volatility := none,
        volatility_value := none, forecast_direction := none } := rfl

/-- For at least three points, twice the recent-window size never exceeds the
series length. -/
theorem two_mul_recentSize_le (n : Nat) (h3 : 3 ≤ n) : 2 * recentSize n ≤ n := by
  have hk := Nat.div_mul_le_self n 5
  unfold recentSize
  rcases Nat.lt_or_ge (n / 5) 1 with h | h
  · have h0 : n / 5 = 0 := by omega
    rw [h0]
    simp only [Nat.max_self, Nat.max_eq_left (Nat.zero_le 1)]
    omega
  · rw [Nat.max_eq_right h]
    omega

/-- With at least three points the momentum windows are the slice branch:
the previous window is the `recentSize`-sized block immediately preceding the
recent window. -/
theorem momentumWindows_eq (values : List ℚ) (h3 : 3 ≤ values.length) :
    (momentumWindows values).1 =
      (values.drop (values.length - 2 * recentSize values.length)).take
        (recentSize values.length) ∧
    values.drop (values.length - 2 * recentSize values.length) =
      (momentumWindows values).1 ++ (momentumWindows values).2 := by
  have h2 := two_mul_recentSize_le values.length h3
  unfold momentumWindows
  simp only [if_pos h2]
  refine ⟨by trivial, ?_⟩
  conv_lhs => rw [← List.take_append_drop (recentSize values.length)
    (values.drop (values.length - 2 * recentSize values.length))]
  congr 1
  rw [List.drop_drop]
  congr 1
  omega

/-- Both momentum windows have exactly `recentSize` elements when the series
has at least three points. -/
theorem momentumWindows_length (values : List ℚ) (h3 : 3 ≤ values.length) :
    (momentumWindows values).1.length = recentSize values.length ∧
    (momentumWindows values).2.length = recentSize values.length := by
  have h2 := two_mul_recentSize_le values.length h3
  unfold momentumWindows
  simp only [if_pos h2]
  constructor
  · rw [List.length_take, List.length_drop]
    omega
  · rw [List.length_drop]
    have h1 : 1 ≤ recentSize values.length := Nat.le_max_left 1 _
    omega

/-- Claim C10: for every series of at least three points, the momentum
computation's previous window is the block of `max 1 (n / 5)` points
immediately preceding the recent window; since `2 * max 1 (n / 5) ≤ n` for
every `n ≥ 3`, the head-of-series fallback branch is never taken. -/
theorem C10_previous_window (values : List ℚ) (h3 : 3 ≤ values.length) :
    2 * recentSize values.length ≤ values.length ∧
    (momentumWindows values).1 =
      (values.drop (values.length - 2 * recentSize values.length)).take
        (recentSize values.length) ∧
    values.drop (values.length - 2 * recentSize values.length) =
      (momentumWindows values).1 ++ (momentumWindows values).2 :=
  ⟨two_mul_recentSize_le values.length h3, (momentumWindows_eq values h3).1,
    (momentumWindows_eq values h3).2⟩

/-- Claim C10 witness: the three-point series `[1, 2, 3]`, whose windows are
`([2], [3])`. -/
theorem C10_previous_window_witness :
    2 * recentSize ([1, 2, 3] : List ℚ).length ≤ ([1, 2, 3] : List ℚ).length ∧
    (momentumWindows ([1, 2, 3] : List ℚ)).1 =
      (([1, 2, 3] : List ℚ).drop (([1, 2, 3] : List ℚ).length -
        2 * recentSize ([1, 2, 3] : List ℚ).length)).take
        (recentSize ([1, 2, 3] : List ℚ).length) ∧
    ([1, 2, 3] : List ℚ).drop (([1, 2, 3] : List ℚ).length -
        2 * recentSize ([1, 2, 3] : List ℚ).length) =
      (momentumWindows ([1, 2, 3] : List ℚ)).1 ++
        (momentumWindows ([1, 2, 3] : List ℚ)).2 :=
  C10_previous_window [1, 2, 3] (by decide)

/-- `Rat.sqrt` vanishes at 0, like the real square root. -/
theorem ratSqrt_zero : Rat.sqrt 0 = 0 := by
  simp [Rat.sqrt, Int.sqrt]

/-- A constant series has mean equal to the constant. -/
theorem meanQ_const (values : List ℚ) (c : ℚ) (hne : values ≠ [])
    (hconst : ∀ x ∈ values, x = c) : meanQ values = c := by
  have hsum : values.sum = values.length • c := List.sum_eq_card_nsmul values c hconst
  have hn : (values.length : ℚ) ≠ 0 := by
    have h0 : values.length ≠ 0 := by
      intro h
      exact hne (List.eq_nil_of_length_eq_zero h)
    exact_mod_cast h0
  unfold meanQ
  rw [hsum, nsmul_eq_mul, mul_div_cancel_left₀ _ hn]

/-- A constant series has zero sample variance and hence zero modelled
standard deviation. -/
theorem varQ_const (values : List ℚ) (c : ℚ) (hne : values ≠ [])
    (hconst : ∀ x ∈ values, x = c) : varQ values = 0 := by
  unfold varQ
  by_cases hlen : values.length ≤ 1
  · rw [if_pos hlen]
  · rw [if_neg hlen]
    have hz : (values.map (fun x => (x - meanQ values) ^ 2)).sum = 0 := by
      apply List.sum_eq_zero
      intro x hx
      obtain ⟨y, hy, rfl⟩ := List.mem_map.mp hx
      rw [meanQ_const values c hne hconst, hconst y hy]
      ring
    rw [hz, zero_div]

/-- Claim C9: on a constant series with more than one point the standard
deviation is 0, so `volatility_value = 0`, `volatility = "low"` and
`trend_strength = 0`; the divisions by `std` and by the mean are guarded, so
the zero cases produce 0 rather than an error. -/
theorem C9_constant_series (country : String) (values : List ℚ) (c : ℚ)
    (hlen : 1 < values.length) (hconst : ∀ x ∈ values, x = c) :
    (get_summary_statistics country values).volatility_value = some 0 ∧
    (get_summary_statistics country values).volatility = some "low" ∧
    (get_summary_statistics country values).trend_strength = some 0 := by
  have hne : values ≠ [] := by
    intro h
    rw [h] at hlen
    simp at hlen
  have hempty : values.isEmpty = false := by
    cases values with
    | nil => exact absurd rfl hne
    | cons a l => rfl
  have hstd : stdQ values = 0 := by
    unfold stdQ
    rw [varQ_const values c hne hconst]
    exact ratSqrt_zero
  have hvv : volatilityValue values = 0 := by
    unfold volatilityValue
    by_cases hm : meanQ values ≠ 0
    · rw [if_pos hm, hstd, zero_div, zero_mul]
    · rw [if_neg hm]
  refine ⟨?_, ?_, ?_⟩
  · simp only [get_summary_statistics, hempty, Bool.false_eq_true, if_false,
      volatilityValueOf, if_pos hlen, hvv]
  · simp only [get_summary_statistics, hempty, Bool.false_eq_true, if_false,
      volatilityOf, if_pos hlen, hvv, volatilityLabel]
    norm_num
  · simp only [get_summary_statistics, hempty, Bool.false_eq_true, if_false,
      trendStrengthOf, if_pos hlen, hstd]
    norm_num

/-- Claim C9 witness: the constant three-point series `[5, 5, 5]`. -/
theorem C9_constant_series_witness :
    (get_summary_statistics "X" [5, 5, 5]).volatility_value = some 0 ∧
    (get_summary_statistics "X" [5, 5, 5]).volatility = some "low" ∧
    (get_summary_statistics "X" [5, 5, 5]).trend_strength = some 0 :=
  C9_constant_series "X" [5, 5, 5] 5 (by decide)
    (by intro x hx; simp at hx; exact hx)

/-- On a sorted series the previous momentum window has mean at most that of
the recent window: every element of the previous block precedes, hence is at
most, every element of the recent block, and both blocks have the same
size. -/
theorem windows_mean_le (values : List ℚ) (hsort : values.Sorted (· ≤ ·))
    (h3 : 3 ≤ values.length) :
    meanQ (momentumWindows values).1 ≤ meanQ (momentumWindows values).2 := by
  obtain ⟨hp, hr⟩ := momentumWindows_length values h3
  have happ := (momentumWindows_eq values h3).2
  have hsorted2 :
      ((momentumWindows values).1 ++ (momentumWindows values).2).Pairwise (· ≤ ·) := by
    rw [← happ]
    exact List.Pairwise.sublist (List.drop_sublist _ _) hsort
  obtain ⟨hpw, hrw, hcross⟩ := List.pairwise_append.mp hsorted2
  have hrs1 : 1 ≤ recentSize values.length := Nat.le_max_left 1 _
  cases hrv : (momentumWindows values).2 with
  | nil =>
    rw [hrv] at hr
    simp at hr
    omega
  | cons y0 rest =>
    have hy0mem : y0 ∈ (momentumWindows values).2 := by
      rw [hrv]
      exact List.mem_cons_self _ _
    have hy0min : ∀ y ∈ (momentumWindows values).2, y0 ≤ y := by
      intro y hy
      rw [hrv] at hy hrw
      rcases List.mem_cons.mp hy with h | h
      · subst h
        exact le_refl _
      · exact (List.pairwise_cons.mp hrw).1 y h
    have hle1 : (momentumWindows values).1.sum ≤ (momentumWindows values).1.length • y0 :=
      List.sum_le_card_nsmul _ _ (fun x hx => hcross x hx y0 hy0mem)
    have hle2 : (momentumWindows values).2.length • y0 ≤ (momentumWindows values).2.sum :=
      List.card_nsmul_le_sum _ _ hy0min
    have hsum : (momentumWindows values).1.sum ≤ (momentumWindows values).2.sum := by
      rw [hp] at hle1
      rw [hr] at hle2
      exact le_trans hle1 hle2
    have hpos : (0 : ℚ) < (recentSize values.length : ℚ) := by
      exact_mod_cast hrs1
    unfold meanQ
    rw [← hrv, hp, hr]
    exact (div_le_div_iff_of_pos_right hpos).mpr hsum

/-- Claim C6 (counterexample): the claim as stated fails already at the
strictly increasing two-point series `[0, 1]`: the trend is "increasing", but
momentum needs at least three points, so `forecast_direction` is `None`
rather than one of the two claimed labels. -/
theorem C6_counterexample :
    ([0, 1] : List ℚ).Sorted (· ≤ ·) ∧ 1 < ([0, 1] : List ℚ).length ∧
    (get_summary_statistics "C" [0, 1]).trend = some "increasing" ∧
    (get_summary_statistics "C" [0, 1]).forecast_direction = none := by
  have hslope : slopeQ ([0, 1] : List ℚ) = 1 := by
    unfold slopeQ
    simp [sxySum, sxSum, sxxSum]
    norm_num
  have ht : trendOf ([0, 1] : List ℚ) = some "increasing" := by
    unfold trendOf
    rw [if_pos (by norm_num), if_pos (by rw [hslope]; norm_num)]
  have hm : momentumOf ([0, 1] : List ℚ) = none := by
    unfold momentumOf
    rw [if_neg (by norm_num)]
  refine ⟨?_, by norm_num, ?_, ?_⟩
  · norm_num [List.sorted_cons]
  · simp only [get_summary_statistics, List.isEmpty_cons, Bool.false_eq_true, if_false]
    exact ht
  · simp only [get_summary_statistics, List.isEmpty_cons, Bool.false_eq_true, if_false]
    unfold forecastOf
    rw [ht, hm]

/-- Claim C6 (amended): for every monotonically nondecreasing series with at
least three points, whose least-squares slope exceeds the 0.01 threshold,
whose previous momentum window has nonnegative mean, and whose momentum value
is not exactly 1, the trend is "increasing" and the forecast direction is
`likely_continuing_upward` or `likely_stable` according to the momentum
magnitude. -/
theorem C6_monotone_series (country : String) (values : List ℚ)
    (hsort : values.Sorted (· ≤ ·)) (h3 : 3 ≤ values.length)
    (hslope : 1 / 100 < slopeQ values)
    (hprev : 0 ≤ meanQ (momentumWindows values).1)
    (hmv : momentumValue values ≠ 1) :
    (get_summary_statistics country values).trend = some "increasing" ∧
    ((get_summary_statistics country values).forecast_direction =
        some "likely_continuing_upward" ∨
      (get_summary_statistics country values).forecast_direction =
        some "likely_stable") := by
  have hempty : values.isEmpty = false := by
    cases values with
    | nil => simp at h3
    | cons a l => rfl
  have h1 : 1 < values.length := by omega
  have htrend : trendOf values = some "increasing" := by
    unfold trendOf
    rw [if_pos h1, if_pos hslope]
  have hmom : momentumOf values = some (momentumLabel (momentumValue values)) := by
    unfold momentumOf
    rw [if_pos h3]
  have hmv0 : 0 ≤ momentumValue values := by
    unfold momentumValue
    by_cases hpm : meanQ (momentumWindows values).1 ≠ 0
    · rw [if_pos hpm]
      have hpmpos : 0 < meanQ (momentumWindows values).1 :=
        lt_of_le_of_ne hprev (Ne.symm hpm)
      have hrm := windows_mean_le values hsort h3
      have hdiv : 0 ≤ (meanQ (momentumWindows values).2 -
          meanQ (momentumWindows values).1) / meanQ (momentumWindows values).1 :=
        div_nonneg (by linarith) (le_of_lt hpmpos)
      exact mul_nonneg hdiv (by norm_num)
    · rw [if_neg hpm]
  have hforecast : forecastOf values =
      some (forecastDirection "increasing" (momentumLabel (momentumValue values))) := by
    unfold forecastOf
    rw [htrend, hmom]
  refine ⟨?_, ?_⟩
  · simp only [get_summary_statistics, hempty, Bool.false_eq_true, if_false]
    exact htrend
  · simp only [get_summary_statistics, hempty, Bool.false_eq_true, if_false]
    rw [hforecast]
    by_cases hlt : |momentumValue values| < 1
    · right
      unfold momentumLabel
      rw [if_pos hlt]
      rfl
    · have h1le : 1 ≤ momentumValue values :=
        le_of_not_lt (by rwa [abs_of_nonneg hmv0] at hlt)
      have h1lt : 1 < momentumValue values := lt_of_le_of_ne h1le (Ne.symm hmv)
      left
      unfold momentumLabel
      by_cases h5 : 5 < momentumValue values
      · rw [if_neg hlt, if_pos h5]
        rfl
      · rw [if_neg hlt, if_neg h5, if_pos h1lt]
        rfl

/-- Claim C6 witness: the strictly increasing series `[0, 1, 2]` has slope 1,
previous-window mean 1 and momentum value 100. -/
theorem C6_monotone_series_witness :
    (get_summary_statistics "X" [0, 1, 2]).trend = some "increasing" ∧
    ((get_summary_statistics "X" [0, 1, 2]).forecast_direction =
        some "likely_continuing_upward" ∨
      (get_summary_statistics "X" [0, 1, 2]).forecast_direction =
        some "likely_stable") :=
  C6_monotone_series "X" [0, 1, 2]
    (by norm_num [List.sorted_cons])
    (by norm_num)
    (by unfold slopeQ; simp [sxySum, sxSum, sxxSum]; norm_num)
    (by norm_num [momentumWindows, recentSize, meanQ])
    (by norm_num [momentumValue, momentumWindows, recentSize, meanQ])

/-! ### Calendar dates (src/utils/query_parser.py:36-136)

`extract_date_range` manipulates dates in two forms: `datetime` values
(constructed, compared, sorted, shifted by `timedelta`) and the strings those
values print to, compared lexicographically by Python string comparison.
`Date` models `datetime.date`; years are `Int` so that the `now - timedelta`
arithmetic of the relative-range rules is total (Python would raise
`OverflowError` below year 1 — the totalisation only extends the model where
the source would crash). -/

structure Date where
  y : Int
  m : Nat
  d : Nat
deriving Repr, DecidableEq

/-- Proleptic Gregorian leap year, as used by `datetime`. -/
def isLeap (y : Int) : Bool :=
  (y % 4 == 0 && y % 100 != 0) || y % 400 == 0

/-- Days in a month of the proleptic Gregorian calendar. -/
def daysInMonth (y : Int) (m : Nat) : Nat :=
  if m = 2 then (if isLeap y then 29 else 28)
  else if m = 4 ∨ m = 6 ∨ m = 9 ∨ m = 11 then 30
  else 31

/-- A `datetime.date`-representable value. -/
def validDate (dt : Date) : Prop :=
  1 ≤ dt.m ∧ dt.m ≤ 12 ∧ 1 ≤ dt.d ∧ dt.d ≤ daysInMonth dt.y dt.m

/-- The Python `datetime(year, month, day)` constructor: `ValueError` (here
`none`) outside `1 ≤ year ≤ 9999` or the calendar bounds. -/
def mkDate (y m d : Nat) : Option Date :=
  if 1 ≤ y ∧ y ≤ 9999 ∧ 1 ≤ m ∧ m ≤ 12 ∧ 1 ≤ d ∧ d ≤ daysInMonth (y : Int) m then
    some ⟨(y : Int), m, d⟩
  else none

/-- The previous calendar day. -/
def predDay (dt : Date) : Date :=
  if 2 ≤ dt.d then ⟨dt.y, dt.m, dt.d - 1⟩
  else if 2 ≤ dt.m then ⟨dt.y, dt.m - 1, daysInMonth dt.y (dt.m - 1)⟩
  else ⟨dt.y - 1, 12, 31⟩

/-- `dt - timedelta(days = n)`. -/
def subDays (dt : Date) : Nat → Date
  | 0 => dt
  | n + 1 => subDays (predDay dt) n

/-- Chronological (lexicographic) order on dates, as `datetime` compares. -/
def dateLE (a b : Date) : Prop :=
  a.y < b.y ∨ (a.y = b.y ∧ (a.m < b.m ∨ (a.m = b.m ∧ a.d ≤ b.d)))

/-- Strict chronological order on dates. -/
def dateLT (a b : Date) : Prop :=
  a.y < b.y ∨ (a.y = b.y ∧ (a.m < b.m ∨ (a.m = b.m ∧ a.d < b.d)))

instance : DecidableRel dateLE := fun a b =>
  decidable_of_iff
    (a.y < b.y ∨ (a.y = b.y ∧ (a.m < b.m ∨ (a.m = b.m ∧ a.d ≤ b.d)))) Iff.rfl

instance : DecidableRel dateLT := fun a b =>
  decidable_of_iff
    (a.y < b.y ∨ (a.y = b.y ∧ (a.m < b.m ∨ (a.m = b.m ∧ a.d < b.d)))) Iff.rfl

instance : IsTotal Date dateLE := ⟨by intro a b; unfold dateLE; omega⟩

instance : IsTrans Date dateLE := ⟨by intro a b c; unfold dateLE; omega⟩

theorem dateLE_refl (a : Date) : dateLE a a := by unfold dateLE; omega

theorem dateLT_le {a b : Date} (h : dateLT a b) : dateLE a b := by
  unfold dateLT at h
  unfold dateLE
  omega

theorem dateLE_lt_or_eq {a b : Date} (h : dateLE a b) : dateLT a b ∨ a = b := by
  cases a with
  | mk y1 m1 d1 =>
    cases b with
    | mk y2 m2 d2 =>
      unfold dateLE at h
      unfold dateLT
      simp only at h ⊢
      by_cases hy : y1 = y2
      · by_cases hm : m1 = m2
        · by_cases hd : d1 = d2
          · right
            rw [hy, hm, hd]
          · left
            omega
        · left
          omega
      · left
        omega

/-- Months never run out of days. -/
theorem daysInMonth_pos (y : Int) (m : Nat) : 1 ≤ daysInMonth y m := by
  unfold daysInMonth
  split_ifs <;> omega

/-- Months have at most 31 days. -/
theorem daysInMonth_le (y : Int) (m : Nat) : daysInMonth y m ≤ 31 := by
  unfold daysInMonth
  split_ifs <;> omega

/-- December always has 31 days. -/
theorem daysInMonth_december (y : Int) : daysInMonth y 12 = 31 := by
  unfold daysInMonth
  norm_num

theorem validDate_predDay {dt : Date} (h : validDate dt) : validDate (predDay dt) := by
  obtain ⟨y, m, d⟩ := dt
  obtain ⟨h1, h2, h3, h4⟩ := h
  unfold validDate predDay
  dsimp only at h1 h2 h3 h4 ⊢
  split_ifs with hd hm
  · dsimp only
    exact ⟨h1, h2, by omega, by omega⟩
  · dsimp only
    exact ⟨by omega, by omega, daysInMonth_pos _ _, le_refl _⟩
  · dsimp only
    rw [daysInMonth_december]
    exact ⟨by omega, by omega, by omega, by omega⟩

theorem predDay_lt (dt : Date) : dateLT (predDay dt) dt := by
  obtain ⟨y, m, d⟩ := dt
  unfold predDay dateLT
  dsimp only
  split_ifs with hd hm
  · dsimp only
    omega
  · dsimp only
    omega
  · dsimp only
    omega

theorem validDate_subDays {dt : Date} (h : validDate dt) (n : Nat) :
    validDate (subDays dt n) := by
  induction n generalizing dt with
  | zero => exact h
  | succ k ih => exact ih (validDate_predDay h)

theorem subDays_le (dt : Date) (n : Nat) : dateLE (subDays dt n) dt := by
  induction n generalizing dt with
  | zero => exact dateLE_refl dt
  | succ k ih =>
    exact Trans.trans (ih (predDay dt)) (dateLT_le (predDay_lt dt))

/-! ### Date and number formatting -/

/-- A decimal digit as a character. -/
def digitChar (n : Nat) : Char :=
  match n with
  | 0 => '0'
  | 1 => '1'
  | 2 => '2'
  | 3 => '3'
  | 4 => '4'
  | 5 => '5'
  | 6 => '6'
  | 7 => '7'
  | 8 => '8'
  | _ => '9'

/-- `n` printed zero-padded to `w` decimal digits (the `%0wd` of
`strftime`). -/
def padDigits : Nat → Nat → List Char
  | 0, _ => []
  | w + 1, n => digitChar (n / 10 ^ w % 10) :: padDigits w (n % 10 ^ w)

/-- Digits of `n`, least significant first, with explicit fuel so the
definition reduces structurally. -/
def digitsRevFuel : Nat → Nat → List Nat
  | 0, _ => []
  | _ + 1, 0 => []
  | fuel + 1, n + 1 => ((n + 1) % 10) :: digitsRevFuel fuel ((n + 1) / 10)

/-- Python `str(n)` / f-string formatting of a nonnegative integer (no
padding). -/
def natStr (n : Nat) : List Char :=
  if n = 0 then ['0'] else ((digitsRevFuel n n).reverse).map digitChar

/-- `strftime("%Y")` as CPython renders it on glibc: the year in decimal with
no padding, so years below 1000 print with fewer than four digits
(`datetime(19, 2, 2).strftime("%Y")` is `"19"`).  A sign precedes a negative
year, which only arises where Python itself would raise. -/
def fmtYear (y : Int) : List Char :=
  if y < 0 then '-' :: natStr (-y).toNat else natStr y.toNat

/-- `strftime("%Y-%m-%d")` as a character list. -/
def fmtDate (dt : Date) : List Char :=
  fmtYear dt.y ++ '-' :: (padDigits 2 dt.m ++ '-' :: padDigits 2 dt.d)

/-- `strftime("%Y-%m-%d")` as a string. -/
def fmtDateS (dt : Date) : String := String.mk (fmtDate dt)

/-! ### Scanners for the date rules of `extract_date_range`

Each of the four rules uses one fixed regex; they are implemented as direct
scanners with Python's matching semantics (leftmost match, greedy `\d{1,2}`
with backtracking, `findall` continuing after each match). -/

/-- Python `needle in haystack` (substring test). -/
def containsSub (needle hay : List Char) : Bool :=
  (List.range (hay.length + 1)).any (fun i => needle.isPrefixOf (hay.drop i))

/-- Numeric value of a digit character. -/
def dval (c : Char) : Nat := c.toNat - 48

/-- Whether the head of `s` is a word character (false at the end). -/
def wordHead (s : List Char) : Bool :=
  match s.head? with
  | some c => isWordChar c
  | none => false

/-- Match `\d{1,2}[-\x2f]` (the separator class is dash or slash) greedily at the head of `s` (the month part of the
explicit-date pattern): value, digit count, and the input after the
separator. -/
def tryMonthSep (s : List Char) : Option (Nat × Nat × List Char) :=
  match s with
  | a :: b :: c :: r2 =>
    if a.isDigit && b.isDigit && (c = '-' || c = '/') then
      some (dval a * 10 + dval b, 2, r2)
    else if a.isDigit && (b = '-' || b = '/') then
      some (dval a, 1, c :: r2)
    else none
  | [a, b] =>
    if a.isDigit && (b = '-' || b = '/') then some (dval a, 1, []) else none
  | _ => none

/-- Match `\d{1,2}\b` greedily at the head of `s` (the day part): value and
digit count. -/
def tryDayEnd (s : List Char) : Option (Nat × Nat) :=
  match s with
  | a :: b :: r3 =>
    if a.isDigit && b.isDigit && !wordHead r3 then some (dval a * 10 + dval b, 2)
    else if a.isDigit && !isWordChar b then some (dval a, 1)
    else none
  | [a] => if a.isDigit then some (dval a, 1) else none
  | [] => none

/-- Match `\b(\d{4})[-\x2f](\d{1,2})[-\x2f](\d{1,2})\b` at the current position
(`p` = previous character): captured `(y, m, d)` and consumed length. -/
def tryDateAt (p : Option Char) (s : List Char) : Option ((Nat × Nat × Nat) × Nat) :=
  if (match p with | some c => isWordChar c | none => false) then none
  else
    match s with
    | c1 :: c2 :: c3 :: c4 :: sep1 :: r1 =>
      if c1.isDigit && c2.isDigit && c3.isDigit && c4.isDigit &&
          (sep1 = '-' || sep1 = '/') then
        match tryMonthSep r1 with
        | some (mv, mlen, r2) =>
          match tryDayEnd r2 with
          | some (dv, dlen) =>
            some ((dval c1 * 1000 + dval c2 * 100 + dval c3 * 10 + dval c4, mv, dv),
              5 + mlen + 1 + dlen)
          | none => none
        | none => none
      else none
    | _ => none

/-- `re.findall` for the explicit-date pattern: scan left to right,
non-overlapping, continuing after each match.  The fuel argument (one unit
per consumed character, `s.length` at the top) only makes the recursion
structural; `k.max 1` documents that a match consumes input (`tryDateAt`
always consumes at least 8 characters). -/
def findDatesAux : Nat → Option Char → List Char → List (Nat × Nat × Nat)
  | 0, _, _ => []
  | _ + 1, _, [] => []
  | fuel + 1, p, c :: rest =>
    match tryDateAt p (c :: rest) with
    | some (ymd, k) =>
      ymd :: findDatesAux fuel ((c :: rest)[k.max 1 - 1]?) (rest.drop (k.max 1 - 1))
    | none => findDatesAux fuel (some c) rest

/-- Source line 42-43: `re.findall` of the explicit-date pattern
`\b(\d{4})[-\x2f](\d{1,2})[-\x2f](\d{1,2})\b` over the query. -/
def findDates (query : List Char) : List (Nat × Nat × Nat) :=
  findDatesAux query.length none query

/-- Match `\b(19|20)(\d{2})\b` at the current position; the captured year is
`int(group(1) + group(2))`. -/
def tryYearAt (p : Option Char) (s : List Char) : Option Nat :=
  if (match p with | some c => isWordChar c | none => false) then none
  else
    match s with
    | c1 :: c2 :: c3 :: c4 :: rest =>
      if ((c1 = '1' && c2 = '9') || (c1 = '2' && c2 = '0')) && c3.isDigit &&
          c4.isDigit && !wordHead rest then
        some ((if c1 = '1' then 19 else 20) * 100 + (dval c3 * 10 + dval c4))
      else none
    | _ => none

/-- `re.finditer` for the bare-year pattern (only the captured values are
used), non-overlapping, consuming 4 characters per match; the fuel argument
makes the recursion structural. -/
def findYearsAux : Nat → Option Char → List Char → List Nat
  | 0, _, _ => []
  | _ + 1, _, [] => []
  | fuel + 1, p, c :: rest =>
    match tryYearAt p (c :: rest) with
    | some y => y :: findYearsAux fuel ((c :: rest)[3]?) (rest.drop 3)
    | none => findYearsAux fuel (some c) rest

/-- Source line 67-68: the bare-year matches `\b(19|20)(\d{2})\b` of the
query. -/
def findYears (query : List Char) : List Nat :=
  findYearsAux query.length none query

/-- Consume a maximal run of digits, accumulating their value (the greedy
`(\d+)` capture). -/
def digitsVal : Nat → List Char → Nat × List Char
  | acc, [] => (acc, [])
  | acc, c :: r => if c.isDigit then digitsVal (acc * 10 + dval c) r else (acc, c :: r)

/-- Match `\s+` at the head of `s`: at least one space, consumed greedily
(what follows in the patterns is never a space, so greedy consumption is
exact). -/
def skipSpaces1 (s : List Char) : Option (List Char) :=
  match s.head? with
  | some c => if isRegexSpace c then some (s.dropWhile isRegexSpace) else none
  | none => none

/-- Match `<kw>\s+(\d+)\s+(year|years|month|months|day|days)` at the head of
`s`.  The alternation tries `year` before `years` (and so on), and nothing
follows it in the pattern, so the captured unit is always the singular
word. -/
def tryRelAt (kw : List Char) (s : List Char) : Option (Nat × String) :=
  if kw.isPrefixOf s then
    match skipSpaces1 (s.drop kw.length) with
    | none => none
    | some r2 =>
      if (match r2.head? with | some c => c.isDigit | none => false) then
        match digitsVal 0 r2 with
        | (amount, r3) =>
          match skipSpaces1 r3 with
          | none => none
          | some r4 =>
            if ("year".data).isPrefixOf r4 then some (amount, "year")
            else if ("month".data).isPrefixOf r4 then some (amount, "month")
            else if ("day".data).isPrefixOf r4 then some (amount, "day")
            else none
      else none
  else none

/-- `re.search` for a relative-range pattern: leftmost match wins. -/
def searchRel (kw : List Char) : List Char → Option (Nat × String)
  | [] => none
  | c :: rest =>
    match tryRelAt kw (c :: rest) with
    | some res => some res
    | none => searchRel kw rest

/-- Match `(?:in|during)\s+(\d{4})` at the head of `s` (the two keyword
alternatives can never both match at one position). -/
def tryInAt (s : List Char) : Option Nat :=
  match (if ("in".data).isPrefixOf s then some 2
    else if ("during".data).isPrefixOf s then some 6 else none : Option Nat) with
  | none => none
  | some k =>
    match skipSpaces1 (s.drop k) with
    | none => none
    | some r2 =>
      match r2 with
      | a :: b :: c :: d :: _ =>
        if a.isDigit && b.isDigit && c.isDigit && d.isDigit then
          some (dval a * 1000 + dval b * 100 + dval c * 10 + dval d)
        else none
      | _ => none

/-- `re.search` for the `in|during YYYY` pattern. -/
def searchInDuring : List Char → Option Nat
  | [] => none
  | c :: rest =>
    match tryInAt (c :: rest) with
    | some res => some res
    | none => searchInDuring rest

/-! ### QueryParser.extract_date_range (src/utils/query_parser.py:36-136) -/

/-- The f-string `f"{year}-01-01"` of rules 2 and 4 (unpadded year). -/
def yearStartS (y : Nat) : String := String.mk (natStr y ++ ('-' :: '0' :: '1' :: '-' :: '0' :: ['1']))

/-- The f-string `f"{year}-12-31"` of rules 2 and 4. -/
def yearEndS (y : Nat) : String := String.mk (natStr y ++ ('-' :: '1' :: '2' :: '-' :: '3' :: ['1']))

/-- Minimum of a nonempty list of years. -/
def minYear (y : Nat) (ys : List Nat) : Nat := ys.foldl Nat.min y

/-- Maximum of a nonempty list of years. -/
def maxYear (y : Nat) (ys : List Nat) : Nat := ys.foldl Nat.max y

/-- Source lines 41-83 — rules 1 (explicit dates) and 2 (bare years, reached
only when rule 1 found no date tokens).  A `ValueError` from the `datetime`
constructor aborts the whole rule-1 block with both bounds unset; rule 2 is
still skipped because `dates` is nonempty. -/
def stage12 (query ql : List Char) : Option String × Option String :=
  match findDates query with
  | [] =>
    match findYears query with
    | [] => (none, none)
    | y :: ys =>
      if containsSub ("from".data) ql || containsSub ("since".data) ql then
        (some (yearStartS (minYear y ys)), none)
      else if ys = [] then
        (some (yearStartS y), some (yearEndS y))
      else
        (some (yearStartS (minYear y ys)), some (yearEndS (maxYear y ys)))
  | t :: ts =>
    match (t :: ts).mapM (fun v => mkDate v.1 v.2.1 v.2.2) with
    | none => (none, none)
    | some parsed =>
      match parsed with
      | [] => (none, none)
      | [d] =>
        if containsSub ("from".data) ql || containsSub ("since".data) ql then
          (some (fmtDateS d), none)
        else if containsSub ("until".data) ql || containsSub ("to".data) ql ||
            containsSub ("before".data) ql then
          (none, some (fmtDateS d))
        else
          (some (fmtDateS d), none)
      | d1 :: d2 :: ds =>
        let sorted := (d1 :: d2 :: ds).insertionSort dateLE
        (some (fmtDateS (sorted.headD d1)), some (fmtDateS (sorted.getLastD d1)))

/-- Source lines 94-99/107-112: `365` days per year, `30` per month
(deliberately approximate), `1` per day; the unit is always one of the three
singular words. -/
def unitDays (u : String) (n : Nat) : Nat :=
  if containsSub ("year".data) u.data then 365 * n
  else if containsSub ("month".data) u.data then 30 * n
  else n

/-- Source lines 88-113 — one relative-range rule (`last ...` or `past ...`):
when the pattern matches, both bounds are overwritten with
`now - N*unit .. now`; otherwise the incoming pair is untouched. -/
def applyRel (now : Date) (kw : String) (ql : List Char)
    (se : Option String × Option String) : Option String × Option String :=
  match searchRel kw.data ql with
  | none => se
  | some (amount, unit) =>
    (some (fmtDateS (subDays now (unitDays unit amount))), some (fmtDateS now))

/-- Source lines 115-121 — rule 4, `in|during YYYY`: fills `[Jan 1, Dec 31]`
of the captured year only when no start date has been set by a prior rule. -/
def stage4 (ql : List Char) (se : Option String × Option String) :
    Option String × Option String :=
  match se with
  | (some s, e) => (some s, e)
  | (none, e) =>
    match searchInDuring ql with
    | some y => (some (yearStartS y), some (yearEndS y))
    | none => (none, e)

/-- Python string `<`: lexicographic comparison of the code points.  (This
is what `String.lt` means; it is spelled out so that it evaluates inside the
kernel.) -/
def pyLt (a b : String) : Bool :=
  @decide (List.lt a.data b.data) (List.hasDecidableLt a.data b.data)

/-- Source lines 123-134 — clamp both bounds to the dataset range
`[dsr.1, dsr.2]` by Python string comparison, discarding a bound that falls
past the opposite edge. -/
def clampRange (dsr : String × String) (se : Option String × Option String) :
    Option String × Option String :=
  (match se.1 with
   | none => none
   | some s =>
     let s1 := if pyLt s dsr.1 then dsr.1 else s
     if pyLt dsr.2 s1 then none else some s1,
   match se.2 with
   | none => none
   | some e =>
     let e1 := if pyLt dsr.2 e then dsr.2 else e
     if pyLt e1 dsr.1 then none else some e1)

/-- Source src/utils/query_parser.py:36-136 — `QueryParser.extract_date_range`
with the current time passed explicitly. -/
def extract_date_range (dsr : String × String) (now : Date) (query : String) :
    Option String × Option String :=
  let ql := lcList query.data
  clampRange dsr
    (stage4 ql (applyRel now "past" ql (applyRel now "last" ql
      (stage12 query.data ql))))

/-- Source src/utils/query_parser.py:138-153 — `QueryParser.parse_query`:
countries plus the date range, defaulting to the full available range when
both bounds are unset. -/
def parse_query (available : List String) (dsr : String × String) (now : Date)
    (query : String) : List String × (Option String × Option String) :=
  let countries := extract_countries available query
  let se := extract_date_range dsr now query
  if se.1 = none ∧ se.2 = none then (countries, (some dsr.1, some dsr.2))
  else (countries, se)

/-! ### Claim C3: the clamped-range invariant fails for pre-1000 years -/

/-- Claim C3 (counterexample): the claimed invariant
`data_start <= start <= end <= data_end` whenever both bounds are set is
violated by the program.  `strftime("%Y")` prints years below 1000 without
zero padding, so the query `"0019-02-02 1780-05-05"` formats its
chronologically earlier date as the 8-character string `"19-02-02"`.  Under
the Python string comparisons of the clamping block that string tests above
`data_start = "1780-01-01"` (the character `9` sorts after `7`) and below
`data_end = "2020-12-31"` (`1` sorts before `2`), so no clamp fires and no
bound is nulled; the function returns both bounds set with
`start = "19-02-02"` sorting strictly after `end = "1780-05-05"`. -/
theorem C3_counterexample :
    extract_date_range ("1780-01-01", "2020-12-31") (Date.mk 2026 10 12)
        "0019-02-02 1780-05-05" = (some "19-02-02", some "1780-05-05") ∧
    pyLt "1780-05-05" "19-02-02" = true := by
  constructor <;> rfl

/-- Claim C5: a matching `last N unit` or `past N unit` expression rewrites
both bounds to `now - N*unit .. now` (year = 365 days, month = 30 days, via
`unitDays`), whatever the explicit-date and bare-year rules produced, with
`past` applied after `last`; the `in YYYY` / `during YYYY` rule fills
`[YYYY-01-01, YYYY-12-31]` only when no prior rule set a start date, and
leaves a set start untouched. -/
theorem C5_relative_rules (now : Date) (query : String) :
    (∀ dsr : String × String,
      extract_date_range dsr now query =
        clampRange dsr (stage4 (lcList query.data)
          (applyRel now "past" (lcList query.data)
            (applyRel now "last" (lcList query.data)
              (stage12 query.data (lcList query.data)))))) ∧
    (∀ se : Option String × Option String, ∀ n : Nat, ∀ u : String,
      searchRel ("last".data) (lcList query.data) = some (n, u) →
      applyRel now "last" (lcList query.data) se =
        (some (fmtDateS (subDays now (unitDays u n))), some (fmtDateS now))) ∧
    (∀ se : Option String × Option String, ∀ n : Nat, ∀ u : String,
      searchRel ("past".data) (lcList query.data) = some (n, u) →
      applyRel now "past" (lcList query.data) se =
        (some (fmtDateS (subDays now (unitDays u n))), some (fmtDateS now))) ∧
    (∀ s : String, ∀ e : Option String,
      stage4 (lcList query.data) (some s, e) = (some s, e)) ∧
    (∀ e : Option String, ∀ y : Nat,
      searchInDuring (lcList query.data) = some y →
      stage4 (lcList query.data) (none, e) = (some (yearStartS y), some (yearEndS y))) := by
  refine ⟨fun dsr => rfl, ?_, ?_, fun s e => rfl, ?_⟩
  · intro se n u h
    unfold applyRel
    rw [h]
  · intro se n u h
    unfold applyRel
    rw [h]
  · intro e y h
    unfold stage4
    dsimp only
    rw [h]

/-- Claim C5 witness: "last 2 days" with now = 2026-10-12 overwrites an
arbitrary earlier pair with (now - 2 days, now). -/
theorem C5_relative_rules_witness :
    applyRel (Date.mk 2026 10 12) "last" (lcList ("last 2 days" : String).data)
        (some "1999-01-01", some "2000-12-31") =
      (some (fmtDateS (subDays (Date.mk 2026 10 12) (unitDays "day" 2))),
        some (fmtDateS (Date.mk 2026 10 12))) :=
  (C5_relative_rules (Date.mk 2026 10 12) "last 2 days").2.1
    (some "1999-01-01", some "2000-12-31") 2 "day" (by decide)

end Sephira
